import Mathlib

/-!
Shallow embedding of the Stock-Data-Fetcher core:
gap detection and blacklist suppression (`data_fetching_service/gap_detector.py`),
the gap-fill executor (`data_fetching_service/data_fetcher.py`,
`detect_and_fill_gaps` / `add_to_blacklist`, with the `Blacklist` schema of
`data_fetching_service/database.py`), and the work-distribution queue
(`orchestrator/stock_queue_service.py`).

Python `datetime` values are modelled as `Int` microseconds since an epoch;
`timedelta(days = d)` is `d * usPerDay`, `timedelta(hours = h)` is
`h * usPerHour`, and `replace(microsecond = 0)` is `truncSec`.  The ambient
`datetime.now()` calls are modelled by a single `now : Int` parameter.
External effects (the yfinance fetch, the database writes) are modelled as
explicit oracle parameters, so every definition is executable.
-/

namespace StockDataFetcher

/-- Python `str.upper` on one ASCII character (ticker symbols are ASCII). -/
def charUpper (c : Char) : Char :=
  if 97 ≤ c.toNat ∧ c.toNat ≤ 122 then Char.ofNat (c.toNat - 32) else c

/-- Python `str.upper` on an ASCII string, as used by `ticker.upper()`. -/
def strUpper (s : String) : String := ⟨s.data.map charUpper⟩

/-- Microseconds per second (`datetime` sub-second resolution). -/
def usPerSecond : Int := 1000000

/-- Microseconds per hour. -/
def usPerHour : Int := 3600 * usPerSecond

/-- Microseconds per day. -/
def usPerDay : Int := 86400 * usPerSecond

/-- `t.replace(microsecond = 0)`: zero out the sub-second component.
`Int.emod` is the mathematical (floor) remainder, which matches the
calendar-field decomposition of a `datetime`. -/
def truncSec (t : Int) : Int := t - t.emod usPerSecond

/-- One detected gap, the tuple `(gap_start, gap_end, is_hourly)` returned by
`GapDetector.check_for_gaps`. -/
structure Gap where
  gapStart : Int
  gapEnd : Int
  isHourly : Bool
deriving DecidableEq

/-- One row of the `incrementum.blacklist` table (`database.py`, class
`Blacklist`): symbol, gap-start timestamp, insertion time, and the
`is_hourly` column (schema default `True`). The autoincrement `id` plays no
role in the modelled logic and is omitted. -/
structure BlacklistRow where
  stockSymbol : String
  timestamp : Int
  timeAdded : Int
  isHourly : Bool
deriving DecidableEq

/-- `GapDetector._filter_blacklisted_gaps`.  `entries` stands for the whole
blacklist table; the SQL `where stock_symbol == symbol` is the first filter.
An entry is active when `time_added >= datetime.now() - timedelta(hours =
blacklist_expiration_time)`; a gap is dropped when its second-truncated start
is in the set of active entries' second-truncated timestamps. -/
def filter_blacklisted_gaps (now ttlHours : Int) (symbol : String)
    (entries : List BlacklistRow) (gaps : List Gap) : List Gap :=
  if gaps = [] then gaps
  else
    let blacklist_entries := entries.filter (fun e => e.stockSymbol = symbol)
    if blacklist_entries = [] then gaps
    else
      let expiration_cutoff := now - ttlHours * usPerHour
      let active_blacklist :=
        (blacklist_entries.filter (fun e => expiration_cutoff ≤ e.timeAdded)).map
          (fun e => truncSec e.timestamp)
      gaps.filter (fun g => ¬ truncSec g.gapStart ∈ active_blacklist)

/-- The pairwise walk shared by `_check_hourly_gaps` and `_check_minute_gaps`:
`for i in range(len(data) - 1): if data[i+1] - data[i] > threshold: emit`. -/
def pairGaps (threshold : Int) (hourly : Bool) : List Int → List Gap
  | a :: b :: rest =>
      (if threshold < b - a then [⟨a, b, hourly⟩] else []) ++
        pairGaps threshold hourly (b :: rest)
  | _ => []

/-- `GapDetector._check_hourly_gaps` on the ascending list of stored hourly
timestamps: empty data yields the full 730-day retention gap; otherwise the
7-day pairwise walk, then the historical-boundary gap, then the recency gap. -/
def check_hourly_gaps (now : Int) (data : List Int) : List Gap :=
  match data with
  | [] => [⟨now - 730 * usPerDay, now, true⟩]
  | t :: ts =>
      let pw := pairGaps (7 * usPerDay) true (t :: ts)
      let oldest := t
      let newest := (t :: ts).getLast (List.cons_ne_nil t ts)
      let two_years_ago := now - 730 * usPerDay
      let hist := if two_years_ago < oldest then [⟨two_years_ago, oldest, true⟩] else []
      let one_week_ago := now - 7 * usPerDay
      let recent := if newest < one_week_ago then [⟨newest, now, true⟩] else []
      pw ++ hist ++ recent

/-- `GapDetector._check_minute_gaps`: the 30-day window and 1-day threshold
analogue of `check_hourly_gaps`, tagging gaps `is_hourly = False`. -/
def check_minute_gaps (now : Int) (data : List Int) : List Gap :=
  match data with
  | [] => [⟨now - 30 * usPerDay, now, false⟩]
  | t :: ts =>
      let pw := pairGaps (1 * usPerDay) false (t :: ts)
      let oldest := t
      let newest := (t :: ts).getLast (List.cons_ne_nil t ts)
      let thirty_days_ago := now - 30 * usPerDay
      let hist := if thirty_days_ago < oldest then [⟨thirty_days_ago, oldest, false⟩] else []
      let one_day_ago := now - 1 * usPerDay
      let recent := if newest < one_day_ago then [⟨newest, now, false⟩] else []
      pw ++ hist ++ recent

/-- `GapDetector.check_for_gaps`: unknown symbols yield no gaps; otherwise the
hourly gaps, then the minute gaps, filtered once through the blacklist.
`stockExists`, `hourlyData`, `minuteData` and `entries` stand for the
database state visible to the three queries. -/
def check_for_gaps (now ttlHours : Int) (symbol : String) (stockExists : Bool)
    (hourlyData minuteData : List Int) (entries : List BlacklistRow) : List Gap :=
  if !stockExists then []
  else
    filter_blacklisted_gaps now ttlHours symbol entries
      (check_hourly_gaps now hourlyData ++ check_minute_gaps now minuteData)

/-! ## Stock queue service (`orchestrator/stock_queue_service.py`)

`StockQueueService` holds two structurally identical category states
(history and gap-detection), each a pending queue plus a processed list.
The category-level operations below are the bodies of `refresh_queues`,
`get_batch` / `get_gap_detection_batch`, and `reset_queues` as they act on
one category; the service-level wrappers apply them to the two fields. -/

/-- One queue category: the pending queue and the processed (dispatched) list. -/
structure QueueState where
  pending : List String
  dispatched : List String
deriving DecidableEq

/-- The payload of `StockBatchResponse` (`orchestrator/models.py`), without
the wall-clock `timestamp` string. -/
structure StockBatchResponse where
  tickers : List String
  batchSize : Nat
  remainingInQueue : Nat
  totalProcessed : Nat
deriving DecidableEq

/-- `refresh_queues` on one category: pending becomes a copy of `tickers`,
processed is cleared. -/
def refreshCat (tickers : List String) (_s : QueueState) : QueueState :=
  ⟨tickers, []⟩

/-- `get_batch` (and identically `get_gap_detection_batch`) on one category:
an empty queue returns an empty response and leaves the state untouched;
otherwise the first `min limit (length pending)` symbols move from the front
of pending to the end of processed and are returned. -/
def get_batch (limit : Nat) (s : QueueState) : StockBatchResponse × QueueState :=
  if s.pending = [] then
    (⟨[], 0, 0, s.dispatched.length⟩, s)
  else
    let batch_size := min limit s.pending.length
    let batch := s.pending.take batch_size
    let s' : QueueState := ⟨s.pending.drop batch_size, s.dispatched ++ batch⟩
    (⟨batch, batch.length, s'.pending.length, s'.dispatched.length⟩, s')

/-- `reset_queues` on one category: `queue.extend(processed); processed.clear()`
— the processed symbols are appended to the END of the pending queue. -/
def resetCat (s : QueueState) : QueueState :=
  ⟨s.pending ++ s.dispatched, []⟩

/-- The service: the batch-size configuration and both category states. -/
structure StockQueueService where
  stocksPerRequest : Nat
  history : QueueState
  gapDetection : QueueState
deriving DecidableEq

/-- `StockQueueService.refresh_queues`: both categories are reseeded. -/
def refresh_queues (tickers : List String) (svc : StockQueueService) : StockQueueService :=
  { svc with
    history := refreshCat tickers svc.history
    gapDetection := refreshCat tickers svc.gapDetection }

/-- `StockQueueService.get_batch`: the category operation on the history state. -/
def service_get_batch (svc : StockQueueService) : StockBatchResponse × StockQueueService :=
  let r := get_batch svc.stocksPerRequest svc.history
  (r.1, { svc with history := r.2 })

/-- `StockQueueService.get_gap_detection_batch`: the same operation on the
gap-detection state. -/
def get_gap_detection_batch (svc : StockQueueService) : StockBatchResponse × StockQueueService :=
  let r := get_batch svc.stocksPerRequest svc.gapDetection
  (r.1, { svc with gapDetection := r.2 })

/-- `StockQueueService.reset_queues`: both categories are reset. -/
def reset_queues (svc : StockQueueService) : StockQueueService :=
  { svc with
    history := resetCat svc.history
    gapDetection := resetCat svc.gapDetection }

/-- One category-level operation, for reasoning about call sequences. -/
inductive QOp where
  | refresh (tickers : List String)
  | getBatch (limit : Nat)
  | reset
deriving DecidableEq

/-- Whether an operation is a `refresh`. -/
def QOp.isRefresh : QOp → Bool
  | .refresh _ => true
  | _ => false

/-- Apply one category-level operation to a category state. -/
def applyOp : QOp → QueueState → QueueState
  | .refresh ts, s => refreshCat ts s
  | .getBatch n, s => (get_batch n s).2
  | .reset, s => resetCat s

/-- Apply a sequence of category-level operations, left to right. -/
def applyOps : List QOp → QueueState → QueueState
  | [], s => s
  | op :: rest, s => applyOps rest (applyOp op s)

/-! ## Gap-fill executor (`data_fetching_service/data_fetcher.py`)

`DataFetcher.detect_and_fill_gaps` runs the gap detector, then for each gap
runs a bounded retry loop around the yfinance fetch and the database save.
The external world is modelled by oracles: `att i r` is the outcome of
attempt `r` on gap number `i` (a successful fetch-and-save with its inserted
row count, an empty response, or a raised exception — the latter two are
indistinguishable to the loop, both advance the retry counter), and
`blOk i` says whether the blacklist insert for gap `i` commits or raises. -/

/-- Outcome of one fetch-and-save attempt for one gap. -/
inductive AttemptResult where
  | filled (rows : Nat)
  | empty
  | error
deriving DecidableEq

/-- Result of the per-gap retry loop: filled with an inserted-row count after
`retries` failed attempts, or left unfilled after `attempts` attempts. -/
inductive GapFillStatus where
  | filledAt (rows retries : Nat)
  | unfilled (attempts : Nat)
deriving DecidableEq

/-- The `while retry_count < max_retries and not gap_filled` loop of
`detect_and_fill_gaps`, with `fuel` the number of iterations still allowed
and `r` the current `retry_count`. A filled attempt records `retry_count`
as the retries consumed; an empty or erroring attempt increments it. -/
def fill_gap_loop (att : Nat → AttemptResult) : Nat → Nat → GapFillStatus
  | 0, r => .unfilled r
  | fuel + 1, r =>
      match att r with
      | .filled rows => .filledAt rows r
      | _ => fill_gap_loop att fuel (r + 1)

/-- `DataFetcher.add_to_blacklist`: the constructed `Blacklist` row. The
insert sets `stock_symbol`, `timestamp` (the gap's start, untouched) and
`time_added = datetime.now()`; `is_hourly` is not passed, so the column
default `True` from `database.py` applies. -/
def add_to_blacklist (ticker : String) (gapStart now : Int) : BlacklistRow :=
  ⟨ticker, gapStart, now, true⟩

/-- Itemized record of a filled gap in the outcome dictionary. -/
structure FilledRec where
  gapStart : Int
  gapEnd : Int
  isHourly : Bool
  rowsInserted : Nat
  retries : Nat
deriving DecidableEq

/-- Itemized record of a failed or blacklisted gap (the `error` message
string carries no further modelled information). -/
structure FailRec where
  gapStart : Int
  gapEnd : Int
  isHourly : Bool
deriving DecidableEq

/-- Accumulated per-gap results of the fill loop: the three itemized lists,
the inserted-row total, and the blacklist rows written during the run. -/
structure GapBatchAcc where
  filledGaps : List FilledRec
  failedGaps : List FailRec
  blacklistedGaps : List FailRec
  totalRows : Nat
  added : List BlacklistRow
deriving DecidableEq

/-- The `for gap_start, gap_end, is_hourly in gaps` loop of
`detect_and_fill_gaps`: each gap runs the retry loop; an unfilled gap is
blacklisted when the insert commits and recorded as failed when the insert
raises, and in either case the loop continues with the remaining gaps.
`i` is the index of the current gap in the original list. -/
def process_gaps (ticker : String) (now : Int) (fuel : Nat)
    (att : Nat → Nat → AttemptResult) (blOk : Nat → Bool) :
    Nat → List Gap → GapBatchAcc
  | _, [] => ⟨[], [], [], 0, []⟩
  | i, g :: rest =>
      let acc := process_gaps ticker now fuel att blOk (i + 1) rest
      match fill_gap_loop (att i) fuel 0 with
      | .filledAt rows r =>
          { acc with
            filledGaps := ⟨g.gapStart, g.gapEnd, g.isHourly, rows, r⟩ :: acc.filledGaps
            totalRows := rows + acc.totalRows }
      | .unfilled _ =>
          if blOk i then
            { acc with
              blacklistedGaps := ⟨g.gapStart, g.gapEnd, g.isHourly⟩ :: acc.blacklistedGaps
              added := add_to_blacklist ticker g.gapStart now :: acc.added }
          else
            { acc with
              failedGaps := ⟨g.gapStart, g.gapEnd, g.isHourly⟩ :: acc.failedGaps }

/-- `max_retries = max_retries or self.max_gap_fill_retries`: `None` and `0`
are falsy in Python, so both select the instance default; every other value
(including negatives) is kept. -/
def eff_retries : Option Int → Int → Int
  | none, d => d
  | some v, d => if v = 0 then d else v

/-- The dictionary returned by `detect_and_fill_gaps`: the reduced
`"No gaps detected"` object of the zero-gap early return, or the full
outcome with all counts and itemized lists. -/
inductive FillOutcome where
  | noGaps (ticker : String) (gapsFound gapsFilled : Nat) (message : String)
  | outcome (ticker : String)
      (gapsFound gapsFilled gapsFailed gapsBlacklisted totalRowsInserted : Nat)
      (filledGaps : List FilledRec) (failedGaps : List FailRec)
      (blacklistedGaps : List FailRec)
deriving DecidableEq

/-- Whether a `FillOutcome` carries all of: the found/filled/failed/
blacklisted counts, the inserted-row total, and the three itemized lists. -/
def isCompleteOutcome : FillOutcome → Bool
  | .noGaps _ _ _ _ => false
  | .outcome _ _ _ _ _ _ _ _ _ => true

/-- `DataFetcher.detect_and_fill_gaps`. The first component is the returned
dictionary, the second the blacklist rows inserted during the run. The
retry bound is `max_retries or self.max_gap_fill_retries`, and the loop
bound `while retry_count < max_retries` admits `(eff_retries mr d).toNat`
iterations from `retry_count = 0` (none when the bound is ≤ 0). -/
def detect_and_fill_gaps (ticker : String) (maxRetries : Option Int)
    (defaultRetries : Int) (now ttlHours : Int) (stockExists : Bool)
    (hourlyData minuteData : List Int) (entries : List BlacklistRow)
    (att : Nat → Nat → AttemptResult) (blOk : Nat → Bool) :
    FillOutcome × List BlacklistRow :=
  let t := strUpper ticker
  let m := eff_retries maxRetries defaultRetries
  let gaps := check_for_gaps now ttlHours t stockExists hourlyData minuteData entries
  if gaps = [] then
    (.noGaps t 0 0 "No gaps detected", [])
  else
    let acc := process_gaps t now m.toNat att blOk 0 gaps
    (.outcome t gaps.length acc.filledGaps.length acc.failedGaps.length
        acc.blacklistedGaps.length acc.totalRows acc.filledGaps acc.failedGaps
        acc.blacklistedGaps,
      acc.added)

/-- The found count of an outcome dictionary (0 fields absent on `noGaps`
are reported as their Python values where present). -/
def gapsFoundOf : FillOutcome → Nat
  | .noGaps _ f _ _ => f
  | .outcome _ f _ _ _ _ _ _ _ => f

/-- The filled count of an outcome dictionary. -/
def gapsFilledOf : FillOutcome → Nat
  | .noGaps _ _ fi _ => fi
  | .outcome _ _ fi _ _ _ _ _ _ => fi

/-- The failed count of a full outcome (0 when the field is absent). -/
def gapsFailedOf : FillOutcome → Nat
  | .noGaps _ _ _ _ => 0
  | .outcome _ _ _ fa _ _ _ _ _ => fa

/-- The blacklisted count of a full outcome (0 when the field is absent). -/
def gapsBlacklistedOf : FillOutcome → Nat
  | .noGaps _ _ _ _ => 0
  | .outcome _ _ _ _ bl _ _ _ _ => bl

/-- The itemized filled list of a full outcome ([] when absent). -/
def filledListOf : FillOutcome → List FilledRec
  | .noGaps _ _ _ _ => []
  | .outcome _ _ _ _ _ _ fl _ _ => fl

/-- The itemized failed list of a full outcome ([] when absent). -/
def failedListOf : FillOutcome → List FailRec
  | .noGaps _ _ _ _ => []
  | .outcome _ _ _ _ _ _ _ fa _ => fa

/-- The itemized blacklisted list of a full outcome ([] when absent). -/
def blacklistedListOf : FillOutcome → List FailRec
  | .noGaps _ _ _ _ => []
  | .outcome _ _ _ _ _ _ _ _ bl => bl

/-- Hourly timestamps for a concrete full-coverage instance: one point every
7 days after time 0, spanning 728 days. -/
def hourlyWitnessData : List Int :=
  (List.range 104).map fun i => ((i : Int) + 1) * (7 * usPerDay)

/-- Minute timestamps for a concrete full-coverage instance: one point every
day after time 0, spanning 29 days. -/
def minuteWitnessData : List Int :=
  (List.range 29).map fun i => ((i : Int) + 1) * usPerDay

/-! ## Theorems -/

/-- C1, counterexample. The claim requires strict `now − time_added < TTL`
for suppression, but `_filter_blacklisted_gaps` keeps an entry active when
`time_added >= now − TTL`: with `now` exactly 24 hours (the TTL) after
`time_added = 0`, the matching gap is still removed although
`now − time_added < TTL` fails. -/
theorem filter_blacklisted_gaps_ttl_boundary_suppresses :
    filter_blacklisted_gaps 86400000000 24 "A"
        [⟨"A", 5, 0, true⟩] [⟨5, 999, true⟩] = [] ∧
      ¬ ((86400000000 : Int) - 0 < 24 * usPerHour) := by
  decide

/-- C1, amended: a gap is removed by `_filter_blacklisted_gaps` iff some
blacklist entry has the same symbol, an equal second-truncated timestamp,
and age at most the TTL (non-strict: an entry whose age equals the TTL
still suppresses; a strictly older entry, or one for another symbol, never
does). -/
theorem mem_filter_blacklisted_gaps_iff (now ttlHours : Int) (symbol : String)
    (entries : List BlacklistRow) (gaps : List Gap) (g : Gap) :
    g ∈ filter_blacklisted_gaps now ttlHours symbol entries gaps ↔
      g ∈ gaps ∧
        ¬ ∃ e ∈ entries, e.stockSymbol = symbol ∧
            truncSec e.timestamp = truncSec g.gapStart ∧
            now - e.timeAdded ≤ ttlHours * usPerHour := by
  have harith : ∀ e : BlacklistRow,
      (now - ttlHours * usPerHour ≤ e.timeAdded ↔
        now - e.timeAdded ≤ ttlHours * usPerHour) := by
    intro e
    constructor <;> intro h <;> linarith
  simp only [filter_blacklisted_gaps]
  split_ifs with h1 h2
  · simp [h1]
  · have hent : ∀ e ∈ entries, ¬ e.stockSymbol = symbol := by
      simpa using List.filter_eq_nil_iff.mp h2
    constructor
    · intro hmem
      refine ⟨hmem, ?_⟩
      rintro ⟨e, he, hsym, -, -⟩
      exact hent e he hsym
    · exact fun h => h.1
  · have hmap : ∀ x : Int,
        x ∈ ((entries.filter fun e => e.stockSymbol = symbol).filter
              fun e => now - ttlHours * usPerHour ≤ e.timeAdded).map
            (fun e => truncSec e.timestamp) ↔
          ∃ e, e ∈ entries ∧ e.stockSymbol = symbol ∧
            now - ttlHours * usPerHour ≤ e.timeAdded ∧ truncSec e.timestamp = x := by
      intro x
      simp only [List.mem_map, List.mem_filter, decide_eq_true_eq]
      constructor
      · rintro ⟨e, ⟨⟨he, hs⟩, hc⟩, hx⟩
        exact ⟨e, he, hs, hc, hx⟩
      · rintro ⟨e, he, hs, hc, hx⟩
        exact ⟨e, ⟨⟨he, hs⟩, hc⟩, hx⟩
    rw [List.mem_filter]
    simp only [decide_eq_true_eq]
    constructor
    · rintro ⟨hmem, hact⟩
      refine ⟨hmem, ?_⟩
      rintro ⟨e, he, hsym, htr, hage⟩
      exact hact ((hmap _).mpr ⟨e, he, hsym, (harith e).mpr hage, htr⟩)
    · rintro ⟨hmem, hact⟩
      refine ⟨hmem, ?_⟩
      intro hx
      obtain ⟨e, he, hs, hc, htr⟩ := (hmap _).mp hx
      exact hact ⟨e, he, hs, htr, (harith e).mp hc⟩

/-- Non-refresh operations permute the combined pending-plus-dispatched
content of a category. -/
theorem applyOp_perm (op : QOp) (hop : op.isRefresh = false) (s : QueueState) :
    ((applyOp op s).pending ++ (applyOp op s).dispatched).Perm
      (s.pending ++ s.dispatched) := by
  cases op with
  | refresh ts => simp [QOp.isRefresh] at hop
  | getBatch n =>
      by_cases h : s.pending = []
      · simp [applyOp, get_batch, h]
      · simp only [applyOp, get_batch, if_neg h]
        refine (List.Perm.append_left _ List.perm_append_comm).trans ?_
        rw [← List.append_assoc]
        refine (List.Perm.append_right _ List.perm_append_comm).trans ?_
        rw [List.take_append_drop]
  | reset => simp [applyOp, resetCat]

/-- A sequence of non-refresh operations permutes the combined content. -/
theorem applyOps_perm (ops : List QOp)
    (hops : ∀ op ∈ ops, op.isRefresh = false) (s : QueueState) :
    ((applyOps ops s).pending ++ (applyOps ops s).dispatched).Perm
      (s.pending ++ s.dispatched) := by
  induction ops generalizing s with
  | nil => exact List.Perm.refl _
  | cons op rest ih =>
      exact (ih (fun o ho => hops o (List.mem_cons_of_mem op ho))
          (applyOp op s)).trans
        (applyOp_perm op (hops op (List.mem_cons_self op rest)) s)

/-- C2, counterexample. The claim asserts pending and dispatched never share
an element after any sequence following `refresh(tickers)`, with no
distinctness assumption on `tickers`: refreshing with the duplicate list
`["A", "A"]` and withdrawing a batch of one leaves `"A"` in both lists. -/
theorem queue_disjointness_fails_on_duplicates :
    "A" ∈ (applyOps [QOp.getBatch 1] (refreshCat ["A", "A"] ⟨[], []⟩)).pending ∧
      "A" ∈ (applyOps [QOp.getBatch 1] (refreshCat ["A", "A"] ⟨[], []⟩)).dispatched := by
  decide

/-- C2, amended: after `refresh(tickers)` followed by any sequence of
`get_batch` and `reset` calls on the category, `len(pending) +
len(dispatched) = len(tickers)`; and provided the refreshed tickers are
pairwise distinct, pending and dispatched share no element. -/
theorem queue_conservation_and_disjoint (s : QueueState) (tickers : List String)
    (ops : List QOp) (hops : ∀ op ∈ ops, op.isRefresh = false) :
    ((applyOps ops (refreshCat tickers s)).pending.length +
        (applyOps ops (refreshCat tickers s)).dispatched.length =
      tickers.length) ∧
      (tickers.Nodup →
        ∀ x ∈ (applyOps ops (refreshCat tickers s)).pending,
          x ∉ (applyOps ops (refreshCat tickers s)).dispatched) := by
  have hperm := applyOps_perm ops hops (refreshCat tickers s)
  have hbase : (refreshCat tickers s).pending ++ (refreshCat tickers s).dispatched
      = tickers := by
    simp [refreshCat]
  rw [hbase] at hperm
  constructor
  · simpa [List.length_append] using hperm.length_eq
  · intro hnd x hx hx'
    have hnd' : ((applyOps ops (refreshCat tickers s)).pending ++
        (applyOps ops (refreshCat tickers s)).dispatched).Nodup :=
      hperm.symm.nodup hnd
    exact List.disjoint_of_nodup_append hnd' hx hx'

/-- C2, witness: `refresh(["A","B"])`, then one `get_batch` and one `reset`:
conservation gives length 2, and the pending symbol `"A"` is not dispatched. -/
theorem queue_conservation_and_disjoint_witness :
    ((applyOps [QOp.getBatch 1, QOp.reset]
          (refreshCat ["A", "B"] ⟨[], []⟩)).pending.length +
        (applyOps [QOp.getBatch 1, QOp.reset]
          (refreshCat ["A", "B"] ⟨[], []⟩)).dispatched.length = 2) ∧
      "A" ∉ (applyOps [QOp.getBatch 1, QOp.reset]
        (refreshCat ["A", "B"] ⟨[], []⟩)).dispatched :=
  ⟨(queue_conservation_and_disjoint ⟨[], []⟩ ["A", "B"]
      [QOp.getBatch 1, QOp.reset] (by decide)).1,
    (queue_conservation_and_disjoint ⟨[], []⟩ ["A", "B"]
        [QOp.getBatch 1, QOp.reset] (by decide)).2 (by decide) "A" (by decide)⟩

/-- C3, counterexample. From `pending = ["C"], dispatched = ["A","B"]` the
code's `reset` (`queue.extend(processed); processed.clear()`) yields
`pending = ["C","A","B"]`, not the claimed `["A","B","C"]`: dispatched
symbols return to the BACK of pending, not the front. -/
theorem reset_appends_to_back_not_front :
    resetCat ⟨["C"], ["A", "B"]⟩ = ⟨["C", "A", "B"], []⟩ ∧
      resetCat ⟨["C"], ["A", "B"]⟩ ≠ ⟨["A", "B", "C"], []⟩ := by
  decide

/-- C3, amended: `reset()` moves all of dispatched back to the END of
pending (new pending = old pending ++ old dispatched) and leaves dispatched
empty, for both categories; from `pending = ["C"], dispatched = ["A","B"]`
it yields `pending = ["C","A","B"], dispatched = []`. -/
theorem reset_queues_spec :
    (∀ s : QueueState, resetCat s = ⟨s.pending ++ s.dispatched, []⟩) ∧
      (∀ svc : StockQueueService,
        (reset_queues svc).history = ⟨svc.history.pending ++ svc.history.dispatched, []⟩ ∧
          (reset_queues svc).gapDetection =
            ⟨svc.gapDetection.pending ++ svc.gapDetection.dispatched, []⟩) ∧
      resetCat ⟨["C"], ["A", "B"]⟩ = ⟨["C", "A", "B"], []⟩ :=
  ⟨fun _ => rfl, fun _ => ⟨rfl, rfl⟩, rfl⟩

/-- C4: `get_batch` removes exactly the first `min(limit, len(pending))`
symbols from the front of pending, appends them in order to the end of
dispatched, and returns them; on an empty queue it returns an empty batch
and leaves the state untouched. `get_batch` and `get_gap_detection_batch`
are this one operation on the history and gap-detection categories. -/
theorem get_batch_spec :
    (∀ (limit : Nat) (s : QueueState),
        (get_batch limit s).1.tickers = s.pending.take (min limit s.pending.length) ∧
          (get_batch limit s).2.pending = s.pending.drop (min limit s.pending.length) ∧
          (get_batch limit s).2.dispatched =
            s.dispatched ++ s.pending.take (min limit s.pending.length)) ∧
      (∀ (limit : Nat) (d : List String),
        get_batch limit ⟨[], d⟩ = (⟨[], 0, 0, d.length⟩, ⟨[], d⟩)) ∧
      (∀ svc : StockQueueService,
        service_get_batch svc =
            ((get_batch svc.stocksPerRequest svc.history).1,
              { svc with history := (get_batch svc.stocksPerRequest svc.history).2 }) ∧
          get_gap_detection_batch svc =
            ((get_batch svc.stocksPerRequest svc.gapDetection).1,
              { svc with
                gapDetection := (get_batch svc.stocksPerRequest svc.gapDetection).2 })) := by
  refine ⟨?_, ?_, ?_⟩
  · intro limit s
    by_cases h : s.pending = []
    · simp [get_batch, h]
    · simp [get_batch, h]
  · intro limit d
    simp [get_batch]
  · intro svc
    exact ⟨rfl, rfl⟩

/-- C5: for a known symbol with zero stored timestamps in a band, the band
check emits exactly one gap spanning the band's full retention window ending
at `now` — `(now − 730 days, now)` hourly, `(now − 30 days, now)` minute —
and with an empty blacklist `check_for_gaps` passes both through. -/
theorem check_gaps_empty_band_full_window :
    (∀ now : Int, check_hourly_gaps now [] = [⟨now - 730 * usPerDay, now, true⟩]) ∧
      (∀ now : Int, check_minute_gaps now [] = [⟨now - 30 * usPerDay, now, false⟩]) ∧
      (∀ (now ttl : Int) (symbol : String),
        check_for_gaps now ttl symbol true [] [] [] =
          [⟨now - 730 * usPerDay, now, true⟩, ⟨now - 30 * usPerDay, now, false⟩]) :=
  ⟨fun _ => rfl, fun _ => rfl, fun _ _ _ => rfl⟩

/-- The pairwise walk is the filtered-and-mapped list of adjacent pairs. -/
theorem pairGaps_eq_filter (threshold : Int) (hourly : Bool) (l : List Int) :
    pairGaps threshold hourly l =
      ((l.zip l.tail).filter fun p => threshold < p.2 - p.1).map
        fun p => ⟨p.1, p.2, hourly⟩ := by
  induction l with
  | nil => rfl
  | cons a l ih =>
      cases l with
      | nil => rfl
      | cons b rest =>
          rw [List.tail_cons, List.zip_cons_cons, List.filter_cons]
          by_cases h : threshold < b - a <;>
            simp [pairGaps, h, ih]

/-- Adjacent pairs with no over-threshold interval produce no gaps. -/
theorem pairGaps_eq_nil_of_bounded (threshold : Int) (hourly : Bool)
    (l : List Int) (h : ∀ p ∈ l.zip l.tail, p.2 - p.1 ≤ threshold) :
    pairGaps threshold hourly l = [] := by
  rw [pairGaps_eq_filter]
  have hnil : (l.zip l.tail).filter (fun p => threshold < p.2 - p.1) = [] :=
    List.filter_eq_nil_iff.mpr fun p hp => by
      simpa using not_lt.mpr (h p hp)
  rw [hnil]
  rfl

/-- C6: the pairwise walk emits the gap `(t[i], t[i+1])` exactly when the
interval strictly exceeds the band threshold (7 days hourly, 1 day minute,
as wired in `check_hourly_gaps` / `check_minute_gaps`); and when the data is
nonempty, no adjacent interval exceeds the threshold, the oldest point is at
or before the window start, and the newest is within the recency threshold,
the band check returns zero gaps. -/
theorem pairwise_gap_emission_and_no_gaps :
    (∀ (threshold : Int) (hourly : Bool) (l : List Int) (i : Nat)
        (h : i + 1 < l.length),
        ((⟨l.get ⟨i, Nat.lt_of_succ_lt h⟩, l.get ⟨i + 1, h⟩, hourly⟩ : Gap) ∈
            pairGaps threshold hourly l ↔
          threshold < l.get ⟨i + 1, h⟩ - l.get ⟨i, Nat.lt_of_succ_lt h⟩)) ∧
      (∀ (now t : Int) (ts : List Int),
        (∀ p ∈ (t :: ts).zip ts, p.2 - p.1 ≤ 7 * usPerDay) →
        t ≤ now - 730 * usPerDay →
        now - 7 * usPerDay ≤ (t :: ts).getLast (List.cons_ne_nil t ts) →
        check_hourly_gaps now (t :: ts) = []) ∧
      (∀ (now t : Int) (ts : List Int),
        (∀ p ∈ (t :: ts).zip ts, p.2 - p.1 ≤ 1 * usPerDay) →
        t ≤ now - 30 * usPerDay →
        now - 1 * usPerDay ≤ (t :: ts).getLast (List.cons_ne_nil t ts) →
        check_minute_gaps now (t :: ts) = []) := by
  refine ⟨?_, ?_, ?_⟩
  · intro threshold hourly l i h
    have hi : i < l.length := Nat.lt_of_succ_lt h
    have hzlen : i < (l.zip l.tail).length := by
      rcases l with - | ⟨a, l'⟩
      · simp at h
      · simp only [List.zip_cons_cons, List.tail_cons] at *
        simp only [List.length_zip, List.length_cons] at *
        omega
    have hpair : (l.zip l.tail).get ⟨i, hzlen⟩ =
        (l.get ⟨i, hi⟩, l.get ⟨i + 1, h⟩) := by
      have h1 : (l.zip l.tail).get ⟨i, hzlen⟩ =
          (l.get ⟨i, by
            have := List.length_zip l l.tail
            omega⟩,
           l.tail.get ⟨i, by
            have := List.length_zip l l.tail
            omega⟩) := List.getElem_zip
      rw [h1]
      congr 1
      have := List.getElem_tail l i (by
        rcases l with - | ⟨a, l'⟩
        · simp at h
        · simp only [List.tail_cons]
          simp only [List.length_cons] at h
          omega)
      simp only [List.get_eq_getElem]
      rw [this]
    rw [pairGaps_eq_filter]
    constructor
    · intro hmem
      obtain ⟨p, hp, hpg⟩ := List.mem_map.mp hmem
      have hpf := List.mem_filter.mp hp
      have h1 : p.1 = l.get ⟨i, hi⟩ ∧ p.2 = l.get ⟨i + 1, h⟩ := by
        have := hpg
        injection this with e1 e2 e3
        exact ⟨e1, e2⟩
      have := of_decide_eq_true hpf.2
      rw [h1.1, h1.2] at this
      exact this
    · intro hlt
      refine List.mem_map.mpr ⟨(l.get ⟨i, hi⟩, l.get ⟨i + 1, h⟩), ?_, rfl⟩
      refine List.mem_filter.mpr ⟨?_, by simpa using hlt⟩
      rw [← hpair]
      exact List.get_mem _ _ _
  · intro now t ts hbound hold hnew
    simp only [check_hourly_gaps]
    rw [pairGaps_eq_nil_of_bounded _ _ _ hbound,
      if_neg (not_lt.mpr hold), if_neg (not_lt.mpr hnew)]
    rfl
  · intro now t ts hbound hold hnew
    simp only [check_minute_gaps]
    rw [pairGaps_eq_nil_of_bounded _ _ _ hbound,
      if_neg (not_lt.mpr hold), if_neg (not_lt.mpr hnew)]
    rfl

/-- C6, witness: an 8-day interval is emitted by the 7-day walk, and
evenly-spaced full-window data yields zero gaps in both bands. -/
theorem pairwise_gap_emission_and_no_gaps_witness :
    ((⟨(0 : Int), 8 * usPerDay, true⟩ : Gap) ∈
        pairGaps (7 * usPerDay) true [0, 8 * usPerDay] ↔
      7 * usPerDay < 8 * usPerDay - 0) ∧
      check_hourly_gaps (730 * usPerDay) (0 :: hourlyWitnessData) = [] ∧
      check_minute_gaps (30 * usPerDay) (0 :: minuteWitnessData) = [] :=
  ⟨pairwise_gap_emission_and_no_gaps.1 (7 * usPerDay) true [0, 8 * usPerDay] 0
      (by decide),
    pairwise_gap_emission_and_no_gaps.2.1 (730 * usPerDay) 0 hourlyWitnessData
      (by decide) (by decide) (by decide),
    pairwise_gap_emission_and_no_gaps.2.2 (30 * usPerDay) 0 minuteWitnessData
      (by decide) (by decide) (by decide)⟩

/-- Every detected gap lands in exactly one of the three itemized lists. -/
theorem process_gaps_accounting (t : String) (now : Int) (fuel : Nat)
    (att : Nat → Nat → AttemptResult) (blOk : Nat → Bool) (gaps : List Gap) :
    ∀ i : Nat,
      (process_gaps t now fuel att blOk i gaps).filledGaps.length +
          (process_gaps t now fuel att blOk i gaps).failedGaps.length +
          (process_gaps t now fuel att blOk i gaps).blacklistedGaps.length =
        gaps.length := by
  induction gaps with
  | nil => intro i; rfl
  | cons g rest ih =>
      intro i
      simp only [process_gaps]
      have hrec := ih (i + 1)
      cases hfl : fill_gap_loop (att i) fuel 0 with
      | filledAt rows r =>
          simp only [hfl, List.length_cons]
          omega
      | unfilled a =>
          by_cases hb : blOk i <;>
            simp [hfl, hb] <;> omega

/-- Every blacklist row written by the per-gap loop carries the (uppercased)
ticker, `time_added = now`, and the schema-default `is_hourly = true`. -/
theorem process_gaps_added_shape (t : String) (now : Int) (fuel : Nat)
    (att : Nat → Nat → AttemptResult) (blOk : Nat → Bool) (gaps : List Gap) :
    ∀ (i : Nat) (row : BlacklistRow),
      row ∈ (process_gaps t now fuel att blOk i gaps).added →
        row.stockSymbol = t ∧ row.timeAdded = now ∧ row.isHourly = true := by
  induction gaps with
  | nil => intro i row hrow; simp [process_gaps] at hrow
  | cons g rest ih =>
      intro i row hrow
      simp only [process_gaps] at hrow
      cases hfl : fill_gap_loop (att i) fuel 0 with
      | filledAt rows r =>
          rw [hfl] at hrow
          exact ih (i + 1) row hrow
      | unfilled a =>
          rw [hfl] at hrow
          by_cases hb : blOk i
          · rw [if_pos hb] at hrow
            rcases List.mem_cons.mp hrow with hc | hc
            · subst hc; exact ⟨rfl, rfl, rfl⟩
            · exact ih (i + 1) row hc
          · rw [if_neg hb] at hrow
            exact ih (i + 1) row hrow

/-- C7, counterexample. When zero gaps are detected, `detect_and_fill_gaps`
returns the reduced `"No gaps detected"` object, which lacks the failed and
blacklisted counts, the inserted-row total and the itemized lists — not a
complete outcome object. -/
theorem detect_and_fill_zero_gaps_reduced_outcome :
    (detect_and_fill_gaps "aapl" none 3 0 24 false [] [] []
          (fun _ _ => .empty) (fun _ => true)).1 =
        .noGaps "AAPL" 0 0 "No gaps detected" ∧
      isCompleteOutcome (detect_and_fill_gaps "aapl" none 3 0 24 false [] [] []
          (fun _ _ => .empty) (fun _ => true)).1 = false := by
  decide

/-- C7, amended: whenever at least one gap is detected, `fill_gaps` returns
the complete outcome object — found/filled/failed/blacklisted counts that
match its own itemized lists, with filled + failed + blacklisted = found —
and it returns a value (never an exception) for every oracle behaviour;
when zero gaps are detected it instead returns the reduced object with only
the ticker, zero found/filled counts, and a message. -/
theorem detect_and_fill_complete_outcome_when_gaps (ticker : String)
    (mr : Option Int) (d now ttl : Int) (ex : Bool) (hd md : List Int)
    (entries : List BlacklistRow) (att : Nat → Nat → AttemptResult)
    (blOk : Nat → Bool)
    (h : check_for_gaps now ttl (strUpper ticker) ex hd md entries ≠ []) :
    isCompleteOutcome
        (detect_and_fill_gaps ticker mr d now ttl ex hd md entries att blOk).1 =
        true ∧
      gapsFoundOf
          (detect_and_fill_gaps ticker mr d now ttl ex hd md entries att blOk).1 =
        (check_for_gaps now ttl (strUpper ticker) ex hd md entries).length ∧
      gapsFilledOf
          (detect_and_fill_gaps ticker mr d now ttl ex hd md entries att blOk).1 =
        (filledListOf
          (detect_and_fill_gaps ticker mr d now ttl ex hd md entries att blOk).1).length ∧
      gapsFailedOf
          (detect_and_fill_gaps ticker mr d now ttl ex hd md entries att blOk).1 =
        (failedListOf
          (detect_and_fill_gaps ticker mr d now ttl ex hd md entries att blOk).1).length ∧
      gapsBlacklistedOf
          (detect_and_fill_gaps ticker mr d now ttl ex hd md entries att blOk).1 =
        (blacklistedListOf
          (detect_and_fill_gaps ticker mr d now ttl ex hd md entries att blOk).1).length ∧
      gapsFilledOf
            (detect_and_fill_gaps ticker mr d now ttl ex hd md entries att blOk).1 +
          gapsFailedOf
            (detect_and_fill_gaps ticker mr d now ttl ex hd md entries att blOk).1 +
          gapsBlacklistedOf
            (detect_and_fill_gaps ticker mr d now ttl ex hd md entries att blOk).1 =
        gapsFoundOf
          (detect_and_fill_gaps ticker mr d now ttl ex hd md entries att blOk).1 := by
  simp only [detect_and_fill_gaps, if_neg h, isCompleteOutcome, gapsFoundOf,
    gapsFilledOf, gapsFailedOf, gapsBlacklistedOf, filledListOf, failedListOf,
    blacklistedListOf]
  refine ⟨trivial, trivial, trivial, trivial, trivial, ?_⟩
  exact process_gaps_accounting (strUpper ticker) now
    (eff_retries mr d).toNat att blOk
    (check_for_gaps now ttl (strUpper ticker) ex hd md entries) 0

/-- C7, witness: a known symbol with no stored data yields two gaps; with an
always-empty quote source the outcome is complete and its counts add up. -/
theorem detect_and_fill_complete_outcome_when_gaps_witness :
    check_for_gaps 0 24 (strUpper "A") true [] [] [] ≠ [] ∧
      isCompleteOutcome (detect_and_fill_gaps "A" none 3 0 24 true [] [] []
          (fun _ _ => .empty) (fun _ => true)).1 = true ∧
      gapsFilledOf (detect_and_fill_gaps "A" none 3 0 24 true [] [] []
            (fun _ _ => .empty) (fun _ => true)).1 +
          gapsFailedOf (detect_and_fill_gaps "A" none 3 0 24 true [] [] []
            (fun _ _ => .empty) (fun _ => true)).1 +
          gapsBlacklistedOf (detect_and_fill_gaps "A" none 3 0 24 true [] [] []
            (fun _ _ => .empty) (fun _ => true)).1 =
        gapsFoundOf (detect_and_fill_gaps "A" none 3 0 24 true [] [] []
          (fun _ _ => .empty) (fun _ => true)).1 :=
  ⟨by decide,
    (detect_and_fill_complete_outcome_when_gaps "A" none 3 0 24 true [] [] []
        (fun _ _ => .empty) (fun _ => true) (by decide)).1,
    (detect_and_fill_complete_outcome_when_gaps "A" none 3 0 24 true [] [] []
        (fun _ _ => .empty) (fun _ => true) (by decide)).2.2.2.2.2⟩

/-- C8, counterexample. `max_retries = max_retries or default` makes a zero
bound silently select the default (here 3) rather than raise: the run
attempts fetches and fills both gaps. A negative bound is truthy, so the
`while retry_count < max_retries` loop never executes: both gaps are
blacklisted with zero attempts even though the source would have succeeded
on the first call. No error is raised in either case. -/
theorem nonpositive_retry_bound_not_rejected :
    eff_retries (some 0) 3 = 3 ∧
      detect_and_fill_gaps "A" (some 0) 3 0 24 true [] [] []
          (fun _ _ => .filled 5) (fun _ => true) =
        detect_and_fill_gaps "A" none 3 0 24 true [] [] []
          (fun _ _ => .filled 5) (fun _ => true) ∧
      gapsFilledOf (detect_and_fill_gaps "A" (some 0) 3 0 24 true [] [] []
          (fun _ _ => .filled 5) (fun _ => true)).1 = 2 ∧
      (detect_and_fill_gaps "A" (some (-1)) 3 0 24 true [] [] []
          (fun _ _ => .filled 5) (fun _ => true)).1 =
        .outcome "A" 2 0 0 2 0 [] []
          [⟨-730 * usPerDay, 0, true⟩, ⟨-30 * usPerDay, 0, false⟩] ∧
      (detect_and_fill_gaps "A" (some (-1)) 3 0 24 true [] [] []
          (fun _ _ => .filled 5) (fun _ => true)).2 =
        [⟨"A", -730 * usPerDay, 0, true⟩, ⟨"A", -30 * usPerDay, 0, true⟩] := by
  decide

/-- C8, amended: a retry bound of `None` or `0` silently selects the
instance default (Python `or` treats both as falsy), so `fill_gaps` with
`max_retries = 0` behaves exactly as with the default; a negative bound is
kept, makes the retry loop run zero times (`v.toNat = 0` iterations), and
every gap is then routed to the blacklist/failed lists with no fetch
attempted; no error is raised for any bound. -/
theorem eff_retries_and_negative_bound_behavior :
    (∀ d : Int, eff_retries none d = d ∧ eff_retries (some 0) d = d) ∧
      (∀ (ticker : String) (d now ttl : Int) (ex : Bool) (hd md : List Int)
          (entries : List BlacklistRow) (att : Nat → Nat → AttemptResult)
          (blOk : Nat → Bool),
        detect_and_fill_gaps ticker (some 0) d now ttl ex hd md entries att blOk =
          detect_and_fill_gaps ticker none d now ttl ex hd md entries att blOk) ∧
      (∀ (att : Nat → AttemptResult) (v : Int), v ≤ 0 →
        fill_gap_loop att v.toNat 0 = .unfilled 0) ∧
      (∀ (t : String) (now : Int) (att : Nat → Nat → AttemptResult)
          (blOk : Nat → Bool) (i : Nat) (gaps : List Gap),
        (process_gaps t now 0 att blOk i gaps).filledGaps = [] ∧
          (process_gaps t now 0 att blOk i gaps).failedGaps.length +
              (process_gaps t now 0 att blOk i gaps).blacklistedGaps.length =
            gaps.length) := by
  refine ⟨fun d => ⟨rfl, rfl⟩, fun _ _ _ _ _ _ _ _ _ _ => rfl, ?_, ?_⟩
  · intro att v hv
    have hz : v.toNat = 0 := Int.toNat_eq_zero.mpr hv
    rw [hz]
    rfl
  · intro t now att blOk i gaps
    induction gaps generalizing i with
    | nil => exact ⟨rfl, rfl⟩
    | cons g rest ih =>
        have hrec := ih (i + 1)
        have hfl : fill_gap_loop (att i) 0 0 = .unfilled 0 := rfl
        simp only [process_gaps, hfl]
        by_cases hb : blOk i <;> simp [hb] <;>
          exact ⟨hrec.1, by have := hrec.2; omega⟩

/-- C8, witness for the amended behaviour. -/
theorem eff_retries_and_negative_bound_behavior_witness :
    eff_retries none 3 = 3 ∧
      ((-2 : Int) ≤ 0 ∧
        fill_gap_loop (fun _ => .filled 1) ((-2 : Int)).toNat 0 = .unfilled 0) ∧
      (process_gaps "A" 0 0 (fun _ _ => .filled 1) (fun _ => true) 0
            [⟨1, 2, true⟩]).filledGaps = [] :=
  ⟨(eff_retries_and_negative_bound_behavior.1 3).1,
    ⟨by decide,
      eff_retries_and_negative_bound_behavior.2.2.1 (fun _ => .filled 1) (-2)
        (by decide)⟩,
    (eff_retries_and_negative_bound_behavior.2.2.2 "A" 0
        (fun _ _ => .filled 1) (fun _ => true) 0 [⟨1, 2, true⟩]).1⟩

/-- C9, counterexample. The minute-band gap (is_hourly = false) detected for
a fresh symbol is blacklisted after exhaustion, but the run writes a row
with `is_hourly = true` (the schema default — `add_to_blacklist` never
passes the band), and no written row carries the gap's band `false`: the
entry is keyed on the start timestamp only, not on the frequency band. -/
theorem blacklist_row_band_counterexample :
    (⟨-30 * usPerDay, 0, false⟩ : Gap) ∈ check_for_gaps 0 24 "A" true [] [] [] ∧
      (⟨"A", -30 * usPerDay, 0, true⟩ : BlacklistRow) ∈
        (detect_and_fill_gaps "A" (some 1) 3 0 24 true [] [] []
          (fun _ _ => .empty) (fun _ => true)).2 ∧
      ¬ ∃ row ∈ (detect_and_fill_gaps "A" (some 1) 3 0 24 true [] [] []
          (fun _ _ => .empty) (fun _ => true)).2,
          row.timestamp = -30 * usPerDay ∧ row.isHourly = false := by
  decide

/-- C9, amended: on exhaustion the executor creates a blacklist row carrying
the symbol, the gap's start timestamp, and `time_added = now`, with
`is_hourly` left at the schema default `true` (the band is not recorded);
when the blacklist insert raises, the gap is recorded in the failed list
(not the blacklisted list); in both cases the remaining gaps are still
processed and no exception escapes the per-gap loop. -/
theorem exhaustion_blacklist_insert_spec :
    (∀ (t : String) (now : Int) (fuel : Nat) (att : Nat → Nat → AttemptResult)
        (blOk : Nat → Bool) (i : Nat) (g : Gap) (rest : List Gap) (a : Nat),
      fill_gap_loop (att i) fuel 0 = .unfilled a →
        process_gaps t now fuel att blOk i (g :: rest) =
          (if blOk i then
            { process_gaps t now fuel att blOk (i + 1) rest with
              blacklistedGaps := ⟨g.gapStart, g.gapEnd, g.isHourly⟩ ::
                (process_gaps t now fuel att blOk (i + 1) rest).blacklistedGaps
              added := (⟨t, g.gapStart, now, true⟩ : BlacklistRow) ::
                (process_gaps t now fuel att blOk (i + 1) rest).added }
          else
            { process_gaps t now fuel att blOk (i + 1) rest with
              failedGaps := ⟨g.gapStart, g.gapEnd, g.isHourly⟩ ::
                (process_gaps t now fuel att blOk (i + 1) rest).failedGaps })) ∧
      (∀ (ticker : String) (mr : Option Int) (d now ttl : Int) (ex : Bool)
          (hd md : List Int) (entries : List BlacklistRow)
          (att : Nat → Nat → AttemptResult) (blOk : Nat → Bool)
          (row : BlacklistRow),
        row ∈ (detect_and_fill_gaps ticker mr d now ttl ex hd md entries
            att blOk).2 →
          row.stockSymbol = strUpper ticker ∧ row.timeAdded = now ∧
            row.isHourly = true) := by
  constructor
  · intro t now fuel att blOk i g rest a hfl
    simp only [process_gaps, hfl]
    rfl
  · intro ticker mr d now ttl ex hd md entries att blOk row hrow
    simp only [detect_and_fill_gaps] at hrow
    by_cases h : check_for_gaps now ttl (strUpper ticker) ex hd md entries = []
    · rw [if_pos h] at hrow
      simp at hrow
    · rw [if_neg h] at hrow
      exact process_gaps_added_shape (strUpper ticker) now
        (eff_retries mr d).toNat att blOk
        (check_for_gaps now ttl (strUpper ticker) ex hd md entries) 0 row hrow

/-- C9, witness: a gap exhausted under fuel 1 is blacklisted with the
default-band row, and a concrete written row has the stated shape. -/
theorem exhaustion_blacklist_insert_spec_witness :
    (fill_gap_loop ((fun _ _ => AttemptResult.empty) 0) 1 0 =
        GapFillStatus.unfilled 1) ∧
      process_gaps "A" 7 1 (fun _ _ => .empty) (fun _ => true) 0
          [⟨1, 2, false⟩] =
        (if (fun _ : Nat => true) 0 then
          { process_gaps "A" 7 1 (fun _ _ => .empty) (fun _ => true) 1 [] with
            blacklistedGaps := ⟨1, 2, false⟩ ::
              (process_gaps "A" 7 1 (fun _ _ => .empty) (fun _ => true) 1
                []).blacklistedGaps
            added := (⟨"A", 1, 7, true⟩ : BlacklistRow) ::
              (process_gaps "A" 7 1 (fun _ _ => .empty) (fun _ => true) 1
                []).added }
        else
          { process_gaps "A" 7 1 (fun _ _ => .empty) (fun _ => true) 1 [] with
            failedGaps := ⟨1, 2, false⟩ ::
              (process_gaps "A" 7 1 (fun _ _ => .empty) (fun _ => true) 1
                []).failedGaps }) ∧
      ((⟨"A", -30 * usPerDay, 0, true⟩ : BlacklistRow) ∈
          (detect_and_fill_gaps "A" (some 1) 3 0 24 true [] [] []
            (fun _ _ => .empty) (fun _ => true)).2 ∧
        (⟨"A", -30 * usPerDay, 0, true⟩ : BlacklistRow).stockSymbol =
            strUpper "A" ∧
          (⟨"A", -30 * usPerDay, 0, true⟩ : BlacklistRow).timeAdded = 0 ∧
          (⟨"A", -30 * usPerDay, 0, true⟩ : BlacklistRow).isHourly = true) :=
  ⟨by decide,
    exhaustion_blacklist_insert_spec.1 "A" 7 1 (fun _ _ => .empty)
      (fun _ => true) 0 ⟨1, 2, false⟩ [] 1 (by decide),
    by decide,
    exhaustion_blacklist_insert_spec.2 "A" (some 1) 3 0 24 true [] [] []
      (fun _ _ => .empty) (fun _ => true) ⟨"A", -30 * usPerDay, 0, true⟩
      (by decide)⟩

/-- C10: the blacklist filter never reads the `is_hourly` column — changing
it on every entry leaves the result unchanged — so a single active entry
whose truncated timestamp matches a gap start suppresses that start in both
bands; and the executor's insert path leaves `is_hourly` at the schema
default `true`. -/
theorem filter_ignores_is_hourly :
    (∀ (now ttl : Int) (symbol : String) (entries : List BlacklistRow)
        (gaps : List Gap) (f : BlacklistRow → Bool),
      filter_blacklisted_gaps now ttl symbol
          (entries.map fun e => ⟨e.stockSymbol, e.timestamp, e.timeAdded, f e⟩)
          gaps =
        filter_blacklisted_gaps now ttl symbol entries gaps) ∧
      (∀ (now ttl : Int) (symbol : String) (e : BlacklistRow) (s e1 e2 : Int),
        e.stockSymbol = symbol → truncSec e.timestamp = truncSec s →
        now - ttl * usPerHour ≤ e.timeAdded →
        filter_blacklisted_gaps now ttl symbol [e]
          [⟨s, e1, true⟩, ⟨s, e2, false⟩] = []) ∧
      (∀ (t : String) (gs now : Int), (add_to_blacklist t gs now).isHourly = true) := by
  refine ⟨?_, ?_, fun _ _ _ => rfl⟩
  · intro now ttl symbol entries gaps f
    simp only [filter_blacklisted_gaps, List.filter_map, List.map_map]
    by_cases hg : gaps = []
    · simp [hg]
    · rw [if_neg hg, if_neg hg]
      by_cases hs : entries.filter (fun e => e.stockSymbol = symbol) = []
      · rw [show (entries.filter
            ((fun e : BlacklistRow => decide (e.stockSymbol = symbol)) ∘
              fun e => (⟨e.stockSymbol, e.timestamp, e.timeAdded, f e⟩ :
                BlacklistRow))) = entries.filter
            (fun e => e.stockSymbol = symbol) from rfl, hs]
        simp
      · rw [show (entries.filter
            ((fun e : BlacklistRow => decide (e.stockSymbol = symbol)) ∘
              fun e => (⟨e.stockSymbol, e.timestamp, e.timeAdded, f e⟩ :
                BlacklistRow))) = entries.filter
            (fun e => e.stockSymbol = symbol) from rfl]
        rw [if_neg (by simpa using hs), if_neg hs]
        rfl
  · intro now ttl symbol e s e1 e2 hsym htr hcut
    simp only [filter_blacklisted_gaps]
    rw [if_neg (by simp)]
    rw [show ([e].filter fun x => x.stockSymbol = symbol) = [e] by
      simp [List.filter, hsym]]
    rw [if_neg (by simp)]
    rw [show ([e].filter fun x => now - ttl * usPerHour ≤ x.timeAdded) = [e] by
      simp [List.filter, hcut]]
    simp [htr]

/-- C10, witness: a single fresh hourly-marked entry suppresses both an
hourly and a minute gap sharing its truncated start. -/
theorem filter_ignores_is_hourly_witness :
    ((⟨"A", 1000000, 50, true⟩ : BlacklistRow).stockSymbol = "A" ∧
        truncSec (⟨"A", 1000000, 50, true⟩ : BlacklistRow).timestamp =
          truncSec 1500000 ∧
        (50 : Int) - 24 * usPerHour ≤
          (⟨"A", 1000000, 50, true⟩ : BlacklistRow).timeAdded) ∧
      filter_blacklisted_gaps 50 24 "A" [⟨"A", 1000000, 50, true⟩]
        [⟨1500000, 9000000, true⟩, ⟨1500000, 7000000, false⟩] = [] :=
  ⟨⟨by decide, by decide, by decide⟩,
    filter_ignores_is_hourly.2.1 50 24 "A" ⟨"A", 1000000, 50, true⟩
      1500000 9000000 7000000 (by decide) (by decide) (by decide)⟩

end StockDataFetcher
